import Mathlib

/-
  Verification development for gpio-watch (src/main.c).

  The monitored program watches a set of GPIO lines via poll(2) on the
  sysfs value files, applies a per-line policy (raw pass-through for
  RISING/FALLING/BOTH edge modes, a debounced state machine for the
  SWITCH mode), and synchronously runs an external handler script per
  fired event.  The definitions below are a shallow embedding of the
  relevant parts of main.c; external facts the program observes (open(2)
  results, poll(2) results, is_file checks, child exit statuses, the
  monotonic clock, the characters read from the value files) are passed
  in as explicit oracle parameters.
-/

set_option maxHeartbeats 1000000

namespace GpioWatch

/-- Edge detection modes of a monitored pin (EDGE_RISING, EDGE_FALLING,
EDGE_BOTH, EDGE_SWITCH in gpio.h; main.c only distinguishes whether the
mode equals EDGE_SWITCH). -/
inductive Edge
  | rising
  | falling
  | both
  | switch
  deriving DecidableEq

/-- Per-line debounce memory of a SWITCH pin in watch_pins (main.c):
`state` embeds switch_state[i] (unsigned char, only ever assigned 0 or 1),
`down_at` embeds down_at[i] (long long, last confirmed transition time in
whole seconds of CLOCK_MONOTONIC). -/
structure SwitchSt where
  state : Nat
  down_at : Int
  deriving DecidableEq

/-- The per-line state at the point monitoring begins: main.c line 125
clears switch_state[] with memset to 0, but down_at[] (declared at line
122) is never initialized, so its first value is whatever was on the
stack; `junk` stands for that indeterminate initial content. -/
def initSwitchSt (junk : Int) : SwitchSt :=
  { state := 0, down_at := junk }

/-- One observation by the SWITCH-mode state machine, main.c lines
165-177: `raw` is valbuf[0] after the re-read, `now` is ts.tv_sec.
Returns the updated per-line state and the value passed to run_script
when the transition is confirmed (none when nothing fires). -/
def switchStep (st : SwitchSt) (raw : Char) (now : Int) : SwitchSt × Option Nat :=
  if st.state = 0 ∧ raw = '1' then
    if now - st.down_at > 1 then ({ state := 1, down_at := now }, some 1)
    else (st, none)
  else if st.state = 1 ∧ raw = '0' then
    if now - st.down_at > 1 then ({ state := 0, down_at := now }, some 0)
    else (st, none)
  else
    (st, none)

/-- Processing of one readiness event on a line, main.c lines 161-181:
SWITCH pins go through the debounced state machine, every other edge
mode fires immediately with valbuf[0] == '1' ? 1 : 0. -/
def processEvent (edge : Edge) (st : SwitchSt) (raw : Char) (now : Int) :
    SwitchSt × Option Nat :=
  if edge = Edge.switch then switchStep st raw now
  else (st, some (if raw = '1' then 1 else 0))

/-- The SWITCH state machine folded over a sequence of readiness
observations (raw character, clock second) for one line, collecting the
fired values in order.  This is the per-line projection of the wait
loop's SWITCH handling across iterations. -/
def runSwitch : SwitchSt → List (Char × Int) → SwitchSt × List Nat
  | st, [] => (st, [])
  | st, ev :: rest =>
      let s := switchStep st ev.1 ev.2
      let r := runSwitch s.1 rest
      (r.1, s.2.toList ++ r.2)

/-- Alternating value sequence of a given length: alt v n = v, 1-v, v, ...
(n values).  Used to state the fired-value alternation property. -/
def alt : Nat → Nat → List Nat
  | _, 0 => []
  | v, n + 1 => v :: alt (1 - v) n

/-- Outcome reported by wait(2) for the handler child process: normal
exit with a status code (WIFEXITED/WEXITSTATUS) or termination by an
uncaught signal (WIFSIGNALED/WTERMSIG). -/
inductive WaitStatus
  | exited (code : Nat)
  | signaled (sig : Nat)
  deriving DecidableEq

/-- Log lines emitted by run_script in main.c, kept structured so that
the presence of the status code or signal number in the message is part
of the model. -/
inductive LogMsg
  | warnNoScript (pin : Nat) (path : String)
  | infoRunning (pin : Nat) (path : String)
  | warnExitStatus (pin : Nat) (code : Nat)
  | warnSignal (pin : Nat) (sig : Nat)
  deriving DecidableEq

/-- Warning-level messages (LOG_WARN in main.c). -/
def isWarn : LogMsg → Bool
  | LogMsg.warnNoScript _ _ => true
  | LogMsg.warnExitStatus _ _ => true
  | LogMsg.warnSignal _ _ => true
  | LogMsg.infoRunning _ _ => false

/-- Handler path construction of run_script, main.c lines 71-77:
snprintf(script_path, ..., "%s/%d", script_dir, pin). -/
def scriptPath (sdir : String) (pin : Nat) : String :=
  sdir ++ "/" ++ toString pin

/-- Record of one spawned handler process: the exec'd path, its full
argv (execl(script_path, script_path, pin_str, value_str, NULL) at main.c
line 92), and the status collected by the wait(&status) at line 96.  The
status being a field of the record reflects that run_script does not
return before the wait completes. -/
structure Spawned where
  path : String
  argv : List String
  status : WaitStatus
  deriving DecidableEq

/-- run_script, main.c lines 63-110.  Oracle parameters: `is_file` is
the fileutil.h existence/regular-file check on a path, `child` is the
status wait(2) will report for the spawned handler.  Returns the spawn
record (none when no process was spawned) and the log lines emitted, in
order.  The function is total: no branch of run_script terminates the
monitor process. -/
def run_script (is_file : String → Bool) (child : WaitStatus)
    (sdir : String) (pin : Nat) (value : Nat) : Option Spawned × List LogMsg :=
  let path := scriptPath sdir pin
  if is_file path = false then
    (none, [LogMsg.warnNoScript pin path])
  else
    let spawned : Spawned := { path := path
                               argv := [path, toString pin, toString value]
                               status := child }
    let waitLogs : List LogMsg :=
      match child with
      | WaitStatus.exited code =>
          if code = 0 then [] else [LogMsg.warnExitStatus pin code]
      | WaitStatus.signaled sig => [LogMsg.warnSignal pin sig]
    (some spawned, LogMsg.infoRunning pin path :: waitLogs)

/-- POLLPRI from poll.h, the events mask requested for every pin
(main.c line 139). -/
def POLLPRI : Nat := 2

/-- One entry of the fdlist array built at startup (struct pollfd with
the fields main.c assigns: fd and events). -/
structure PollFd where
  fd : Int
  events : Nat
  deriving DecidableEq

/-- Startup loop of watch_pins, main.c lines 131-140.  Oracles:
`openResult p` is the descriptor open(2) returns for pin p's value file
(-1 on failure), `readResult fd` is the return value of the initial
clearing read(2) on that descriptor (-1 on failure).  The loop stores
whatever open returned and discards the read result: neither call's
result is inspected, and no branch of the loop can exit the process. -/
def setupLoop (openResult : Nat → Int) (readResult : Int → Int) :
    List Nat → List PollFd
  | [] => []
  | p :: rest =>
      let fd := openResult p
      let _ := readResult fd
      { fd := fd, events := POLLPRI } :: setupLoop openResult readResult rest

/-- Observable outcome of the startup phase: either the process exits
fatally with a code (the behavior the specification predicts for an
open/read failure) or monitoring starts with the built fdlist (what the
code does). -/
inductive SetupOutcome
  | fatalExit (code : Nat)
  | started (fds : List PollFd)
  deriving DecidableEq

/-- The startup phase of watch_pins as main.c implements it: build the
fdlist and fall through to the poll loop.  There is no error check
between lines 131 and 142, so the outcome is always `started`. -/
def pinSetup (openResult : Nat → Int) (readResult : Int → Int)
    (ps : List Nat) : SetupOutcome :=
  SetupOutcome.started (setupLoop openResult readResult ps)

/-- Whether a startup outcome is a fatal process exit. -/
def isFatal : SetupOutcome → Bool
  | SetupOutcome.fatalExit _ => true
  | SetupOutcome.started _ => false

/-- Result of one poll(2) call as the wait loop observes it: `ready n`
for a non-negative return (n descriptors ready) and `failure b` for a
-1 return, where `b` records whether errno was EINTR (the call was
merely interrupted by a signal).  main.c never reads errno, so `b` is
invisible to the code. -/
inductive PollOutcome
  | ready (n : Nat)
  | failure (interrupted : Bool)
  deriving DecidableEq

/-- Error handling of the poll call, main.c lines 147-151: on a -1
return the process prints a diagnostic with perror and exits with
status 1; otherwise the loop continues.  Returns the exit status when
the process terminates, none when the loop goes on. -/
def pollCheck : PollOutcome → Option Nat
  | PollOutcome.failure _ => some 1
  | PollOutcome.ready _ => none

/-- Configuration of one monitored pin (struct pin in gpio.h as main.c
uses it: the pin number and its edge mode). -/
structure PinCfg where
  pin : Nat
  edge : Edge
  deriving DecidableEq

/-- Environment of one wake of the poll loop, indexed by the position i
of the pin in the pin table: whether fdlist[i].revents has POLLPRI set,
the character re-read from the value file, the clock second at the time
line i is processed, whether a handler script exists for a pin number,
and the wait status of the handler spawned while processing line i. -/
structure WakeEnv where
  ready : Nat → Bool
  raw : Nat → Char
  now : Nat → Int
  hasScript : Nat → Bool
  status : Nat → WaitStatus

/-- Events observable in the dispatch trace of one wake: a handler
process starting (the fork/execl in run_script) and that same process
being reaped by wait(2). -/
inductive TraceEv
  | spawn (idx : Nat) (pin : Nat) (value : Nat)
  | done (idx : Nat) (status : WaitStatus)
  deriving DecidableEq

/-- Processing of one table entry inside the for loop of one wake,
main.c lines 154-182: skip when revents lacks POLLPRI, otherwise re-read
the value and run the per-edge-mode policy; a fired value runs the
handler synchronously (spawn immediately followed by its own wait). -/
def procOne (env : WakeEnv) (i : Nat) (cfg : PinCfg) (st : SwitchSt) :
    SwitchSt × List TraceEv :=
  if env.ready i then
    match processEvent cfg.edge st (env.raw i) (env.now i) with
    | (st', none) => (st', [])
    | (st', some v) =>
        if env.hasScript cfg.pin then
          (st', [TraceEv.spawn i cfg.pin v, TraceEv.done i (env.status i)])
        else
          (st', [])
  else (st, [])

/-- The for loop over the pin table in one wake of the poll loop,
main.c lines 153-183, starting at table index i: processes entries
strictly in table order, each to completion, and threads the per-line
SWITCH states through. -/
def wake (env : WakeEnv) : Nat → List (PinCfg × SwitchSt) →
    List (PinCfg × SwitchSt) × List TraceEv
  | _, [] => ([], [])
  | i, (cfg, st) :: rest =>
      let p := procOne env i cfg st
      let w := wake env (i + 1) rest
      ((cfg, p.1) :: w.1, p.2 ++ w.2)

/-- One synchronous handler invocation: table index, pin number, fired
value and the status its wait(2) reported. -/
structure Invocation where
  idx : Nat
  pin : Nat
  value : Nat
  status : WaitStatus
  deriving DecidableEq

/-- The two trace events one synchronous invocation contributes: its
spawn, immediately followed by its completion. -/
def invEvents (inv : Invocation) : List TraceEv :=
  [TraceEv.spawn inv.idx inv.pin inv.value, TraceEv.done inv.idx inv.status]

/-- Claim C1: for a SWITCH line, a readiness event confirms a 0-to-1
transition exactly when the confirmed state is 0, the raw value is '1'
and more than 1 second elapsed since the last confirmed transition,
updating state and timestamp and firing once with value 1; symmetrically
for 1-to-0 with value 0; every other observation (including a raw value
equal to the confirmed state, and changes within the debounce window)
leaves state and timestamp unchanged and fires nothing, so repeated
identical raw values never fire. -/
theorem switch_debounce_policy (st : SwitchSt) (raw : Char) (now : Int) :
    (st.state = 0 → raw = '1' → now - st.down_at > 1 →
      switchStep st raw now = ({ state := 1, down_at := now }, some 1)) ∧
    (st.state = 1 → raw = '0' → now - st.down_at > 1 →
      switchStep st raw now = ({ state := 0, down_at := now }, some 0)) ∧
    (¬(st.state = 0 ∧ raw = '1' ∧ now - st.down_at > 1) →
     ¬(st.state = 1 ∧ raw = '0' ∧ now - st.down_at > 1) →
      switchStep st raw now = (st, none)) ∧
    (st.state = 1 → raw = '1' → switchStep st raw now = (st, none)) ∧
    (st.state = 0 → raw = '0' → switchStep st raw now = (st, none)) := by
  refine ⟨?_, ?_, ?_, ?_, ?_⟩
  · intro h0 h1 ht
    unfold switchStep
    rw [if_pos ⟨h0, h1⟩, if_pos ht]
  · intro h1 h0 ht
    simp [switchStep, h1, h0, ht]
  · intro hn1 hn2
    unfold switchStep
    split_ifs with ha hb hc hd
    · exact absurd ⟨ha.1, ha.2, hb⟩ hn1
    · rfl
    · exact absurd ⟨hc.1, hc.2, hd⟩ hn2
    · rfl
    · rfl
  · intro h1 hr
    simp [switchStep, h1, hr]
  · intro h0 hr
    simp [switchStep, h0, hr]

/-- Witness for switch_debounce_policy at a concrete input: confirmed
state 0, raw '1', 5 seconds elapsed since timestamp 0. -/
theorem switch_debounce_policy_witness :
    switchStep { state := 0, down_at := 0 } '1' 5 =
      ({ state := 1, down_at := 5 }, some 1) :=
  (switch_debounce_policy { state := 0, down_at := 0 } '1' 5).1 rfl rfl (by decide)

/-- Claim C2: for a line whose edge mode is not SWITCH, every readiness
event fires exactly once with the freshly read raw value ('1' maps to 1,
any other character to 0), with no suppression and the per-line state
left untouched. -/
theorem nonswitch_always_fires_raw (edge : Edge) (st : SwitchSt) (raw : Char)
    (now : Int) (h : edge ≠ Edge.switch) :
    processEvent edge st raw now = (st, some (if raw = '1' then 1 else 0)) := by
  unfold processEvent
  rw [if_neg h]

/-- Witness for nonswitch_always_fires_raw: edge mode BOTH, raw '1'. -/
theorem nonswitch_always_fires_raw_witness :
    processEvent Edge.both { state := 0, down_at := 0 } '1' 5 =
      ({ state := 0, down_at := 0 }, some 1) := by
  rw [nonswitch_always_fires_raw Edge.both { state := 0, down_at := 0 } '1' 5
    (by decide)]
  rfl

/-- Claim C10: the debounce comparison reads down_at[i] before any code
path has assigned it, so whether the very first SWITCH transition fires
depends on the indeterminate initial stack contents and not only on the
program's inputs: with identical inputs (state cleared to 0, raw '1',
clock second 5), stack junk 0 fires while stack junk 5 does not. -/
theorem first_debounce_uses_uninitialized :
    (switchStep (initSwitchSt 0) '1' 5).2 = some 1 ∧
    (switchStep (initSwitchSt 5) '1' 5).2 = none := by
  constructor <;> rfl

/-- Counterexample to claim C3: with open(2) failing (-1) for every pin
and the initial read failing as well, the startup phase of watch_pins
does not exit; it stores the failed descriptors and proceeds to the
poll loop with the full pin list. -/
theorem startup_open_failure_not_fatal_cex :
    pinSetup (fun _ => -1) (fun _ => -1) [4, 17] =
      SetupOutcome.started
        [{ fd := -1, events := POLLPRI }, { fd := -1, events := POLLPRI }] ∧
    isFatal (pinSetup (fun _ => -1) (fun _ => -1) [4, 17]) = false := by
  constructor <;> rfl

/-- Amended claim C3: at startup, failure to open a line's value file or
to perform the initial clearing read is not detected at all: the results
of open(2) and read(2) are unchecked, the process never exits there, and
monitoring begins with whatever descriptors open returned (failed lines
are silently dead rather than fatal). -/
theorem startup_open_unchecked (openResult : Nat → Int) (readResult : Int → Int)
    (ps : List Nat) :
    isFatal (pinSetup openResult readResult ps) = false ∧
    (setupLoop openResult readResult ps).map PollFd.fd = ps.map openResult := by
  refine ⟨rfl, ?_⟩
  induction ps with
  | nil => rfl
  | cons p rest ih => simp [setupLoop, ih]

/-- Counterexample to claim C4: a poll(2) failure whose reason is benign
interruption (errno EINTR, modelled by the `interrupted` flag being
true) still terminates the process with exit status 1, because main.c
lines 148-151 exit on any -1 return without examining errno. -/
theorem poll_eintr_fatal_cex :
    pollCheck (PollOutcome.failure true) = some 1 := rfl

/-- Amended claim C4: in the wait loop, every failure of the multiplexed
wait primitive is fatal: on a -1 return the process reports a diagnostic
and exits with status 1 regardless of the failure reason, so a wait
interrupted by a signal also terminates the process; a non-negative
return continues the loop. -/
theorem poll_failure_always_fatal (b : Bool) (n : Nat) :
    pollCheck (PollOutcome.failure b) = some 1 ∧
    pollCheck (PollOutcome.ready n) = none :=
  ⟨rfl, rfl⟩

/-- Claim C5: when the handler script exists, run_script spawns the
process image at script_dir/pin with exactly the three arguments
(the path itself as argv[0], the decimal pin as argv[1], the decimal
value as argv[2], which for the values 0 and 1 the program passes is
exactly "0" or "1"), and the returned record already carries the status
collected by wait(2), i.e. run_script does not return before the child
has exited. -/
theorem run_script_argv_contract (is_file : String → Bool) (child : WaitStatus)
    (sdir : String) (pin value : Nat)
    (hf : is_file (scriptPath sdir pin) = true) (hv : value = 0 ∨ value = 1) :
    (run_script is_file child sdir pin value).1 =
      some { path := scriptPath sdir pin
             argv := [scriptPath sdir pin, toString pin, toString value]
             status := child } ∧
    (toString value = "0" ∨ toString value = "1") := by
  constructor
  · simp [run_script, hf]
  · rcases hv with h | h <;> subst h
    · exact Or.inl rfl
    · exact Or.inr rfl

/-- Witness for run_script_argv_contract: pin 4, value 1, a script that
exists, child exiting normally with status 0. -/
theorem run_script_argv_contract_witness :
    (run_script (fun _ => true) (WaitStatus.exited 0) "/etc/gpio-scripts" 4 1).1 =
      some { path := scriptPath "/etc/gpio-scripts" 4
             argv := [scriptPath "/etc/gpio-scripts" 4, toString 4, toString 1]
             status := WaitStatus.exited 0 } ∧
    (toString 1 = "0" ∨ toString 1 = "1") :=
  run_script_argv_contract (fun _ => true) (WaitStatus.exited 0)
    "/etc/gpio-scripts" 4 1 rfl (Or.inr rfl)

/-- Claim C6: when the handler ran, the warning output of run_script is
empty for a normal exit with status 0, contains exactly a warning
naming the status code for a normal exit with non-zero status, and
contains exactly a warning naming the signal number for a termination
by signal; run_script is total, so none of these outcomes terminates
the monitor. -/
theorem run_script_exit_logging (is_file : String → Bool) (child : WaitStatus)
    (sdir : String) (pin value : Nat)
    (hf : is_file (scriptPath sdir pin) = true) :
    (run_script is_file child sdir pin value).2.filter isWarn =
      (match child with
       | WaitStatus.exited 0 => []
       | WaitStatus.exited code => [LogMsg.warnExitStatus pin code]
       | WaitStatus.signaled sig => [LogMsg.warnSignal pin sig]) := by
  cases child with
  | exited code =>
      cases code with
      | zero => simp [run_script, hf, isWarn]
      | succ n => simp [run_script, hf, isWarn]
  | signaled sig => simp [run_script, hf, isWarn]

/-- Witness for run_script_exit_logging: the handler for pin 3 exits
with status 7 and exactly one warning carrying 7 is logged. -/
theorem run_script_exit_logging_witness :
    (run_script (fun _ => true) (WaitStatus.exited 7)
        "/etc/gpio-scripts" 3 1).2.filter isWarn =
      [LogMsg.warnExitStatus 3 7] :=
  run_script_exit_logging (fun _ => true) (WaitStatus.exited 7)
    "/etc/gpio-scripts" 3 1 rfl

/-- Claim C7: when no executable exists at script_dir/pin, run_script
logs exactly one warning naming that path and returns without spawning
anything (no spawn record, no other log output), for any pin and
value. -/
theorem run_script_missing_script (is_file : String → Bool) (child : WaitStatus)
    (sdir : String) (pin value : Nat)
    (h : is_file (scriptPath sdir pin) = false) :
    run_script is_file child sdir pin value =
      (none, [LogMsg.warnNoScript pin (scriptPath sdir pin)]) := by
  simp [run_script, h]

/-- Witness for run_script_missing_script: no script anywhere, pin 9,
value 0. -/
theorem run_script_missing_script_witness :
    run_script (fun _ => false) (WaitStatus.exited 0) "/etc/gpio-scripts" 9 0 =
      (none, [LogMsg.warnNoScript 9 (scriptPath "/etc/gpio-scripts" 9)]) :=
  run_script_missing_script (fun _ => false) (WaitStatus.exited 0)
    "/etc/gpio-scripts" 9 0 rfl

/-- One SWITCH observation either leaves the state untouched and fires
nothing, or fires 1 from confirmed state 0, or fires 0 from confirmed
state 1. -/
theorem switchStep_classify (st : SwitchSt) (raw : Char) (now : Int) :
    switchStep st raw now = (st, none) ∨
    (st.state = 0 ∧ switchStep st raw now = ({ state := 1, down_at := now }, some 1)) ∨
    (st.state = 1 ∧ switchStep st raw now = ({ state := 0, down_at := now }, some 0)) := by
  unfold switchStep
  split_ifs with ha hb hc hd
  · exact Or.inr (Or.inl ⟨ha.1, rfl⟩)
  · exact Or.inl rfl
  · exact Or.inr (Or.inr ⟨hc.1, rfl⟩)
  · exact Or.inl rfl
  · exact Or.inl rfl

/-- Invariant of the SWITCH state machine along any observation
sequence: the fired values alternate starting with the complement of
the starting confirmed state, the final confirmed state equals the last
fired value (or the starting state when nothing fired), and the state
stays in {0, 1}. -/
theorem runSwitch_alt_invariant (evs : List (Char × Int)) :
    ∀ st : SwitchSt, st.state ≤ 1 →
      (runSwitch st evs).2 = alt (1 - st.state) (runSwitch st evs).2.length ∧
      (runSwitch st evs).1.state = (runSwitch st evs).2.getLastD st.state ∧
      (runSwitch st evs).1.state ≤ 1 := by
  induction evs with
  | nil => exact fun st h => ⟨rfl, rfl, h⟩
  | cons ev rest ih =>
      intro st h
      rcases switchStep_classify st ev.1 ev.2 with hcl | ⟨hs0, hcl⟩ | ⟨hs1, hcl⟩
      · have hrw : runSwitch st (ev :: rest) = runSwitch st rest := by
          simp [runSwitch, hcl]
        rw [hrw]
        exact ih st h
      · have hrw : runSwitch st (ev :: rest) =
            ((runSwitch { state := 1, down_at := ev.2 } rest).1,
              1 :: (runSwitch { state := 1, down_at := ev.2 } rest).2) := by
          simp [runSwitch, hcl]
        obtain ⟨ha, hb, hc⟩ :=
          ih { state := 1, down_at := ev.2 } (by exact Nat.le_refl 1)
        rw [hrw, hs0]
        refine ⟨?_, ?_, hc⟩
        · simp only [List.length_cons, alt]
          exact congrArg (List.cons 1) (by simpa using ha)
        · rw [List.getLastD_cons]
          simpa using hb
      · have hrw : runSwitch st (ev :: rest) =
            ((runSwitch { state := 0, down_at := ev.2 } rest).1,
              0 :: (runSwitch { state := 0, down_at := ev.2 } rest).2) := by
          simp [runSwitch, hcl]
        obtain ⟨ha, hb, hc⟩ :=
          ih { state := 0, down_at := ev.2 } (by exact Nat.zero_le 1)
        rw [hrw, hs1]
        refine ⟨?_, ?_, hc⟩
        · simp only [List.length_cons, alt]
          exact congrArg (List.cons 0) (by simpa using ha)
        · rw [List.getLastD_cons]
          simpa using hb

/-- Claim C9: for a SWITCH line the confirmed state starts at 0 (the
memset at main.c line 125) whatever junk the uninitialized down_at
holds, so along any sequence of readiness observations the fired values
are exactly the alternating sequence 1, 0, 1, 0, ... (in particular the
first fired value is always 1), and after the whole sequence the
confirmed state equals the last fired value (0 when nothing fired).
Since this holds for arbitrary observation sequences it holds for every
prefix, i.e. it is an invariant across every iteration of the wait
loop. -/
theorem switch_fired_alternation (junk : Int) (evs : List (Char × Int)) :
    (runSwitch (initSwitchSt junk) evs).2 =
      alt 1 (runSwitch (initSwitchSt junk) evs).2.length ∧
    (runSwitch (initSwitchSt junk) evs).1.state =
      (runSwitch (initSwitchSt junk) evs).2.getLastD 0 := by
  obtain ⟨h1, h2, _⟩ :=
    runSwitch_alt_invariant evs (initSwitchSt junk) (Nat.zero_le 1)
  exact ⟨by simpa [initSwitchSt] using h1, by simpa [initSwitchSt] using h2⟩

/-- Processing one table entry in one wake either contributes no trace
events, or contributes exactly the spawn-then-wait pair of one
synchronous invocation at this table index. -/
theorem procOne_classify (env : WakeEnv) (i : Nat) (cfg : PinCfg) (st : SwitchSt) :
    (procOne env i cfg st).2 = [] ∨
    ∃ v, (procOne env i cfg st).2 =
      invEvents { idx := i, pin := cfg.pin, value := v, status := env.status i } := by
  unfold procOne
  by_cases hr : env.ready i
  · rw [if_pos hr]
    rcases hpe : processEvent cfg.edge st (env.raw i) (env.now i) with ⟨st', fired⟩
    cases fired with
    | none => exact Or.inl rfl
    | some v =>
        dsimp only
        by_cases hs : env.hasScript cfg.pin
        · rw [if_pos hs]
          exact Or.inr ⟨v, rfl⟩
        · rw [if_neg hs]
          exact Or.inl rfl
  · rw [if_neg hr]
    exact Or.inl rfl

/-- The trace of one wake starting at table index i is a flat sequence
of complete synchronous invocations whose table indices are strictly
increasing and bounded below by i. -/
theorem wake_trace_spec (env : WakeEnv) (lines : List (PinCfg × SwitchSt)) :
    ∀ i : Nat, ∃ invs : List Invocation,
      (wake env i lines).2 = (invs.map invEvents).flatten ∧
      (invs.map Invocation.idx).Pairwise (· < ·) ∧
      ∀ inv ∈ invs, i ≤ inv.idx := by
  induction lines with
  | nil =>
      intro i
      exact ⟨[], rfl, List.Pairwise.nil, by intro inv hm; cases hm⟩
  | cons hd rest ih =>
      intro i
      obtain ⟨cfg, st⟩ := hd
      obtain ⟨invs, h1, h2, h3⟩ := ih (i + 1)
      have hwake : (wake env i ((cfg, st) :: rest)).2 =
          (procOne env i cfg st).2 ++ (wake env (i + 1) rest).2 := rfl
      rcases procOne_classify env i cfg st with hp | ⟨v, hp⟩
      · refine ⟨invs, ?_, h2, ?_⟩
        · rw [hwake, hp, h1, List.nil_append]
        · exact fun inv hm => Nat.le_of_succ_le (h3 inv hm)
      · refine ⟨{ idx := i, pin := cfg.pin, value := v, status := env.status i }
            :: invs, ?_, ?_, ?_⟩
        · rw [hwake, hp, h1, List.map_cons, List.flatten_cons]
        · rw [List.map_cons]
          refine List.Pairwise.cons ?_ h2
          intro x hx
          obtain ⟨inv, hm, hix⟩ := List.mem_map.mp hx
          exact Nat.lt_of_succ_le (hix ▸ h3 inv hm)
        · intro inv hm
          rcases List.mem_cons.mp hm with h | h
          · rw [h]
          · exact Nat.le_of_succ_le (h3 inv h)

/-- Claim C8: within one wake of the poll loop the ready lines are
processed sequentially in ascending line-table order (independently of
the temporal order of the underlying hardware events), and the
dispatch trace is a flat sequence of complete spawn-then-exit blocks
with strictly increasing table indices, so the handler for a later
ready line never begins before the handler for an earlier ready line in
the same wake has fully exited. -/
theorem wake_trace_ordered (env : WakeEnv) (lines : List (PinCfg × SwitchSt)) :
    ∃ invs : List Invocation,
      (wake env 0 lines).2 = (invs.map invEvents).flatten ∧
      (invs.map Invocation.idx).Pairwise (· < ·) := by
  obtain ⟨invs, h1, h2, _⟩ := wake_trace_spec env lines 0
  exact ⟨invs, h1, h2⟩

end GpioWatch
